import Mathlib

/-!
Verification of the door/lock/exit subsystem of the selenia world simulator
(the `Doors` module exercised by `src/test/src/doors.spec.js`).

The `Doors` module itself (`src/doors.js`) is not shipped in this snapshot —
only its test suite, a TODO index referring to it, and an unrelated object
script are present — so every definition below is a shallow embedding
modelled from the specification's description of the module, as noted in
each doc comment.  JavaScript objects with optional fields become structures
with `Option`/`Bool` fields (an absent flag on a JS door object is falsy,
i.e. `false` here); in-place mutation becomes explicit state passing over a
room map; the messaging side effects (`player.say` versus a room broadcast)
become an explicit event list.
-/

namespace Selenia

/-- Modelled from the spec: the Door State record of `src/doors.js` (missing
from src/) — per-exit attributes `open`, `locked`, `mob_locked` and an
optional `key` keyword.  An absent JS flag is `false`; an absent key is
`none`. -/
structure Door where
  open_ : Bool
  locked : Bool
  mob_locked : Bool
  key : Option String
deriving Repr, DecidableEq

/-- Modelled from the spec: an Exit is a directed edge with a
direction/keyword label, a destination room identifier (`location`), and an
optional Door; an Exit with no Door is a plain passageway. -/
structure Exit where
  direction : String
  location : String
  door : Option Door
deriving Repr, DecidableEq

/-- Modelled from the spec: a Room has a display title and an ordered
collection of Exits. -/
structure Room where
  title : String
  exits : List Exit
deriving Repr, DecidableEq

/-- Modelled from the spec: an inventory Item identified by its keyword
set (`hasKeyword`). -/
structure Item where
  keywords : List String
deriving Repr, DecidableEq

/-- Modelled from the spec: the Player collaborator — a name, a current
location identifier and an inventory. -/
structure Player where
  name : String
  location : String
  inventory : List Item
deriving Repr, DecidableEq

/-- Modelled from the spec: the observable messaging effects of a door
operation.  `toActor` is a `player.say` call (actor-only denial text);
`broadcast` is one consistent Broadcast call delivering a first-party /
third-party narration pair to the room. -/
inductive Msg where
  | toActor (text : String)
  | broadcast (firstParty thirdParty : String)
deriving Repr, DecidableEq

/-- Modelled from the spec: the World Graph, a registry of rooms keyed by
location identifier. -/
abbrev RoomsMap := List (String × Room)

/-- Modelled from the spec: `Rooms.getAt(locationId) -> Room` (lookup of the
first entry with the given key). -/
def getAt : RoomsMap → String → Option Room
  | [], _ => none
  | (k, r) :: rest, loc => if k = loc then some r else getAt rest loc

/-- Functional counterpart of in-place room mutation: rewrite the room
stored under `loc` through `f`. -/
def updateRoomAt (rooms : RoomsMap) (loc : String) (f : Room → Room) : RoomsMap :=
  rooms.map (fun kr => if kr.1 = loc then (kr.1, f kr.2) else kr)

/-- Modelled from the spec: `Item.hasKeyword(string) -> bool`. -/
def hasKeyword (it : Item) (k : String) : Bool :=
  it.keywords.contains k

/-! ### Lock Controller: pure predicates and per-exit mutators -/

/-- Modelled from the spec: `isDoor(exit)` — true iff a Door is present. -/
def isDoor (e : Exit) : Bool :=
  e.door.isSome

/-- Modelled from the spec: `isOpen(exit)` — true iff no Door, or
`Door.open` is true. -/
def isOpen (e : Exit) : Bool :=
  match e.door with
  | none => true
  | some d => d.open_

/-- Modelled from the spec: `isLocked(exit)` — true iff a Door is present
and `Door.locked` is true. -/
def isLocked (e : Exit) : Bool :=
  match e.door with
  | none => false
  | some d => d.locked

/-- Modelled from the spec: `isMobLocked(exit)` — true iff a Door is present
and `Door.mob_locked` is true. -/
def isMobLocked (e : Exit) : Bool :=
  match e.door with
  | none => false
  | some d => d.mob_locked

/-- Modelled from the spec: `isNpcPassable(exit)` — true iff the Door is
absent, or neither locked nor mob-locked. -/
def isNpcPassable (e : Exit) : Bool :=
  match e.door with
  | none => true
  | some d => !d.locked && !d.mob_locked

/-- Modelled from the spec: `lockDoor(exit)` sets `locked = true`; a no-op
when no Door is present. -/
def lockDoor (e : Exit) : Exit :=
  { e with door := e.door.map (fun d => { d with locked := true }) }

/-- Modelled from the spec: `unlockDoor(exit)` sets `locked = false`; a
no-op when no Door is present. -/
def unlockDoor (e : Exit) : Exit :=
  { e with door := e.door.map (fun d => { d with locked := false }) }

/-! ### Exit Resolver -/

/-- Modelled from the spec: `findExit(room, directionOrKeyword)` — the
sub-sequence of the room's Exits whose direction equals the token exactly
(0 or 1 in normal data; duplicates tolerated). -/
def findExit (room : Room) (d : String) : List Exit :=
  room.exits.filter (fun e => e.direction == d)

/-- Modelled from the spec: the reverse-lookup scan used by
`updateDestination` — the Exits of `dest` whose declared destination equals
the origin location. -/
def findReverse (originLoc : String) (dest : Room) : List Exit :=
  dest.exits.filter (fun e => e.location == originLoc)

/-- Modelled from the spec: `updateDestination(player, destinationRoom,
onFound)` — scan the destination Room's Exits for one whose declared
destination equals the player's current location; if found, invoke
`onFound` exactly once with that reverse Exit (result `some`), otherwise do
not invoke it (result `none`, no error). -/
def updateDestination {α : Type} (player : Player) (dest : Room) (onFound : Exit → α) : Option α :=
  match findReverse player.location dest with
  | [] => none
  | e :: _ => some (onFound e)

/-! ### Generic first-match update, used by the orchestrator's mutations -/

/-- Rewrite the first element satisfying `p` through `f`, leaving every
other element untouched (the functional rendering of mutating the single
resolved exit in place). -/
def updateFirst (p : Exit → Bool) (f : Exit → Exit) : List Exit → List Exit
  | [] => []
  | x :: xs => if p x then f x :: xs else x :: updateFirst p f xs

/-- Set the `open` attribute of an Exit's Door to `v`; a no-op on a
doorless Exit. -/
def setOpen (e : Exit) (v : Bool) : Exit :=
  { e with door := e.door.map (fun d => { d with open_ := v }) }

/-- Set the `locked` attribute of an Exit's Door to `v`; a no-op on a
doorless Exit. -/
def setLocked (e : Exit) (v : Bool) : Exit :=
  { e with door := e.door.map (fun d => { d with locked := v }) }

/-! ### Door Action Orchestrator -/

/-- Narration for the acting player on a successful open/close. -/
def narrateFirst (v : Bool) : String :=
  if v then "You open the door." else "You close the door."

/-- Narration for other occupants on a successful open/close. -/
def narrateThird (name : String) (v : Bool) : String :=
  name ++ (if v then " opens the door." else " closes the door.")

/-- The origin-side mutation of a successful open/close: set the `open`
attribute of the first Exit matching the direction in the player's room. -/
def applyOpenOrigin (rooms : RoomsMap) (loc : String) (d : String) (v : Bool) : RoomsMap :=
  updateRoomAt rooms loc
    (fun r => { r with exits := updateFirst (fun e => e.direction == d) (fun e => setOpen e v) r.exits })

/-- Modelled from the spec: the propagation step of a successful open/close
— resolve the destination Room, reverse-look-up the Exit whose destination
equals the origin, and mirror the `open` value onto its Door; silently
skipped when the destination room or the reverse Exit is missing (and a
doorless reverse Exit is left as-is). -/
def propagate (rooms : RoomsMap) (destLoc originLoc : String) (v : Bool) : RoomsMap :=
  match getAt rooms destLoc with
  | none => rooms
  | some destRoom =>
    match findReverse originLoc destRoom with
    | [] => rooms
    | _ :: _ =>
      updateRoomAt rooms destLoc
        (fun r => { r with exits := updateFirst (fun e => e.location == originLoc) (fun e => setOpen e v) r.exits })

/-- Modelled from the spec: the shared open/close state machine of
`src/doors.js` (missing from src/).  Steps: blank-direction guard, resolve
the first Exit matching the direction in the player's current room,
no-door guard, lock guard — each failure an actor-only denial with no
state change — then apply the requested `open` value, narrate one
consistent first/third-party pair, and propagate the value to the reverse
Exit of the destination room.  Returns the updated room map together with
the emitted messages. -/
def setDoorState (d : String) (v : Bool) (player : Player) (rooms : RoomsMap) : RoomsMap × List Msg :=
  if d = "" then
    (rooms, [Msg.toActor "Which door?"])
  else
    match getAt rooms player.location with
    | none => (rooms, [])
    | some room =>
      match findExit room d with
      | [] => (rooms, [Msg.toActor "There is no exit in that direction."])
      | e :: _ =>
        match e.door with
        | none => (rooms, [Msg.toActor "There is no door in that direction."])
        | some dd =>
          if dd.locked then
            (rooms, [Msg.toActor "The door is locked."])
          else
            (propagate (applyOpenOrigin rooms player.location d v) e.location player.location v,
             [Msg.broadcast (narrateFirst v) (narrateThird player.name v)])

/-- Modelled from the spec: `openDoor(direction, player, players, rooms)` —
the open transition of the state machine. -/
def openDoor (d : String) (player : Player) (rooms : RoomsMap) : RoomsMap × List Msg :=
  setDoorState d true player rooms

/-- Modelled from the spec: `closeDoor(direction, player, players, rooms)` —
the close transition of the state machine. -/
def closeDoor (d : String) (player : Player) (rooms : RoomsMap) : RoomsMap × List Msg :=
  setDoorState d false player rooms

/-- Modelled from the spec: the shared key-gated lock/unlock operation of
`src/doors.js` (missing from src/): resolve the Exit for the direction from
the player's current room; if a Door is present and the player's inventory
contains an item whose keyword set includes the Door's configured key, set
`locked` to the target value (narrated to the room); otherwise leave state
unchanged and surface a denial through the player's own message channel
only.  Lock/unlock never propagates to the reverse Exit. -/
def useKeyToSetLocked (d : String) (v : Bool) (player : Player) (rooms : RoomsMap) : RoomsMap × List Msg :=
  if d = "" then
    (rooms, [Msg.toActor "Which door?"])
  else
    match getAt rooms player.location with
    | none => (rooms, [])
    | some room =>
      match findExit room d with
      | [] => (rooms, [Msg.toActor "There is no exit in that direction."])
      | e :: _ =>
        match e.door with
        | none => (rooms, [Msg.toActor "There is no door in that direction."])
        | some dd =>
          match dd.key with
          | none => (rooms, [Msg.toActor "You do not have the key."])
          | some k =>
            if player.inventory.any (fun it => hasKeyword it k) then
              (updateRoomAt rooms player.location
                 (fun r => { r with exits := updateFirst (fun x => x.direction == d) (fun x => setLocked x v) r.exits }),
               [Msg.broadcast
                 (if v then "You lock the door." else "You unlock the door.")
                 (player.name ++ (if v then " locks the door." else " unlocks the door."))])
            else
              (rooms, [Msg.toActor "You do not have the key."])

/-- Modelled from the spec: `useKeyToLock(direction, player, players,
rooms)`. -/
def useKeyToLock (d : String) (player : Player) (rooms : RoomsMap) : RoomsMap × List Msg :=
  useKeyToSetLocked d true player rooms

/-- Modelled from the spec: `useKeyToUnlock(direction, player, players,
rooms)`. -/
def useKeyToUnlock (d : String) (player : Player) (rooms : RoomsMap) : RoomsMap × List Msg :=
  useKeyToSetLocked d false player rooms

/-! ### Concrete fixtures, mirroring the shapes used by the test suite -/

/-- A closed, unlocked door requiring the key keyword `test`. -/
def testDoor : Door :=
  { open_ := false, locked := false, mob_locked := false, key := some "test" }

/-- The `out` exit of the test room, leading to location `2`. -/
def testExit : Exit :=
  { direction := "out", location := "2", door := some testDoor }

/-- The reverse exit stored in room `2`, pointing back at location `1`. -/
def backExit : Exit :=
  { direction := "in", location := "1", door := some testDoor }

/-- The origin room of the fixtures. -/
def testRoom : Room :=
  { title := "fake", exits := [testExit] }

/-- The destination room of the fixtures, holding the reverse exit. -/
def destRoom : Room :=
  { title := "other", exits := [backExit] }

/-- The two-room world used by concrete witnesses. -/
def testRooms : RoomsMap :=
  [("1", testRoom), ("2", destRoom)]

/-- A key item carrying the keyword `test`. -/
def testKey : Item :=
  { keywords := ["test"] }

/-- The acting player of the fixtures, standing in room `1` and holding the
key. -/
def testPlayer : Player :=
  { name := "Test", location := "1", inventory := [testKey] }

/-- A doorless passageway exit used by concrete witnesses. -/
def passageExit : Exit :=
  { direction := "out", location := "2", door := none }

/-- A locked door requiring the key keyword `test`. -/
def lockedTestDoor : Door :=
  { open_ := false, locked := true, mob_locked := false, key := some "test" }

/-- The `out` exit guarded by the locked door. -/
def lockedExit : Exit :=
  { direction := "out", location := "2", door := some lockedTestDoor }

/-- A room whose only exit carries the locked door. -/
def lockedRoom : Room :=
  { title := "fake", exits := [lockedExit] }

/-- A world whose origin room holds the locked exit. -/
def lockedRooms : RoomsMap :=
  [("1", lockedRoom), ("2", destRoom)]

/-- A room with two exits sharing the direction `out`, the second one
doorless — the duplicate-direction shape of the test suite. -/
def dupRoom : Room :=
  { title := "fake", exits := [testExit, passageExit] }

/-- A world whose origin room holds the duplicate `out` exits. -/
def dupRooms : RoomsMap :=
  [("1", dupRoom), ("2", destRoom)]

/-! ### Claims about the Lock Controller predicates -/

/-- C1: an Exit with no Door reports `isDoor = false`, `isOpen = true`,
`isLocked = false`, `isMobLocked = false`, `isNpcPassable = true` — a
doorless passageway is always open, unlocked and passable. -/
theorem doorless_exit_predicates (e : Exit) (h : e.door = none) :
    isDoor e = false ∧ isOpen e = true ∧ isLocked e = false ∧
    isMobLocked e = false ∧ isNpcPassable e = true := by
  simp [isDoor, isOpen, isLocked, isMobLocked, isNpcPassable, h]

/-- Concrete instance of `doorless_exit_predicates` on a doorless exit. -/
theorem doorless_exit_predicates_witness :
    isDoor passageExit = false ∧ isOpen passageExit = true ∧ isLocked passageExit = false ∧
    isMobLocked passageExit = false ∧ isNpcPassable passageExit = true :=
  doorless_exit_predicates passageExit rfl

/-- C4: for an Exit with a Door, `isNpcPassable` is exactly the conjunction
of `not isLocked` and `not isMobLocked` — either flag alone blocks
non-player passage. -/
theorem npc_passable_iff_unlocked_unmoblocked (e : Exit) (dd : Door) (h : e.door = some dd) :
    isNpcPassable e = (!isLocked e && !isMobLocked e) := by
  simp [isNpcPassable, isLocked, isMobLocked, h]

/-- Concrete instance of `npc_passable_iff_unlocked_unmoblocked`. -/
theorem npc_passable_iff_unlocked_unmoblocked_witness :
    isNpcPassable testExit = (!isLocked testExit && !isMobLocked testExit) :=
  npc_passable_iff_unlocked_unmoblocked testExit testDoor rfl

/-- C6: on an Exit with a Door, `lockDoor` makes `isLocked` true,
`unlockDoor` makes it false, both are idempotent, and re-applying a mutator
to a door already in the target state leaves the Exit unchanged. -/
theorem lock_unlock_roundtrip (e : Exit) (dd : Door) (h : e.door = some dd) :
    isLocked (lockDoor e) = true ∧ isLocked (unlockDoor e) = false ∧
    lockDoor (lockDoor e) = lockDoor e ∧ unlockDoor (unlockDoor e) = unlockDoor e ∧
    (dd.locked = true → lockDoor e = e) ∧ (dd.locked = false → unlockDoor e = e) := by
  cases e with
  | mk dir loc door =>
    simp only [Exit.door] at h
    subst h
    cases dd with
    | mk o l m k =>
      refine ⟨rfl, rfl, rfl, rfl, ?_, ?_⟩ <;> (intro hl; subst hl; rfl)

/-- Concrete instance of `lock_unlock_roundtrip` on the fixture exit. -/
theorem lock_unlock_roundtrip_witness :
    isLocked (lockDoor testExit) = true ∧ isLocked (unlockDoor testExit) = false ∧
    lockDoor (lockDoor testExit) = lockDoor testExit ∧
    unlockDoor (unlockDoor testExit) = unlockDoor testExit ∧
    (testDoor.locked = true → lockDoor testExit = testExit) ∧
    (testDoor.locked = false → unlockDoor testExit = testExit) :=
  lock_unlock_roundtrip testExit testDoor rfl

/-- C9: every Lock Controller predicate and mutator is total on a doorless
Exit — the predicates return their defined values and the mutators are
exact no-ops (in this total embedding no operation can raise). -/
theorem doorless_total (e : Exit) (h : e.door = none) :
    isDoor e = false ∧ isOpen e = true ∧ isLocked e = false ∧ isMobLocked e = false ∧
    isNpcPassable e = true ∧ lockDoor e = e ∧ unlockDoor e = e := by
  cases e with
  | mk dir loc door =>
    simp only [Exit.door] at h
    subst h
    exact ⟨rfl, rfl, rfl, rfl, rfl, rfl, rfl⟩

/-- Concrete instance of `doorless_total` on a doorless exit. -/
theorem doorless_total_witness :
    isDoor passageExit = false ∧ isOpen passageExit = true ∧ isLocked passageExit = false ∧
    isMobLocked passageExit = false ∧ isNpcPassable passageExit = true ∧
    lockDoor passageExit = passageExit ∧ unlockDoor passageExit = passageExit :=
  doorless_total passageExit rfl

/-! ### Claims about the Exit Resolver -/

/-- C7: `findExit` matches on exact direction equality; it returns as many
Exits as match (so exactly one when the direction occurs once, the empty
sequence when it occurs zero times, and several on duplicate-direction data
rather than a crash). -/
theorem find_exit_exact (room : Room) (d : String) :
    (∀ e ∈ findExit room d, e.direction = d) ∧
    (findExit room d).length = room.exits.countP (fun e => e.direction == d) ∧
    (room.exits.countP (fun e => e.direction == d) = 0 → findExit room d = []) ∧
    (room.exits.countP (fun e => e.direction == d) = 1 →
      ∃ e, findExit room d = [e] ∧ e.direction = d ∧ e ∈ room.exits) := by
  refine ⟨?_, ?_, ?_, ?_⟩
  · intro e he
    have := (List.mem_filter.mp he).2
    simpa using this
  · simp [findExit, List.countP_eq_length_filter]
  · intro h
    have hlen : (findExit room d).length = 0 := by
      simpa [findExit, List.countP_eq_length_filter] using h
    exact List.length_eq_zero.mp hlen
  · intro h
    have hlen : (findExit room d).length = 1 := by
      simpa [findExit, List.countP_eq_length_filter] using h
    obtain ⟨e, he⟩ := List.length_eq_one.mp hlen
    refine ⟨e, he, ?_, ?_⟩
    · have hmem : e ∈ findExit room d := by simp [he]
      simpa using (List.mem_filter.mp hmem).2
    · have hmem : e ∈ findExit room d := by simp [he]
      exact List.mem_of_mem_filter hmem

/-- Concrete instance of `find_exit_exact`: the fixture room has exactly
one `out` exit and no `wat` exit. -/
theorem find_exit_exact_witness :
    (∃ e, findExit testRoom "out" = [e] ∧ e.direction = "out" ∧ e ∈ testRoom.exits) ∧
    findExit testRoom "wat" = [] :=
  ⟨(find_exit_exact testRoom "out").2.2.2 (by decide),
   (find_exit_exact testRoom "wat").2.2.1 (by decide)⟩

/-- C8: `updateDestination` invokes the callback exactly once, with the
reverse Exit, when the destination room has an Exit whose destination
equals the player's location (the call log is a one-element list); when no
such Exit exists the callback is never invoked (result `none`, total, so
no error is raised). -/
theorem update_destination_callback (player : Player) (dest : Room) :
    ((∃ e ∈ dest.exits, e.location = player.location) →
      ∃ e, updateDestination player dest (fun x => [x]) = some [e] ∧
        e.location = player.location ∧ e ∈ dest.exits) ∧
    ((∀ e ∈ dest.exits, e.location ≠ player.location) →
      ∀ (α : Type) (f : Exit → α), updateDestination player dest f = none) := by
  constructor
  · rintro ⟨e, hmem, hloc⟩
    have hne : findReverse player.location dest ≠ [] := by
      have : e ∈ findReverse player.location dest := by
        simp [findReverse, List.mem_filter, hmem, hloc]
      intro hc
      simp [hc] at this
    cases hrev : findReverse player.location dest with
    | nil => exact absurd hrev hne
    | cons e0 rest =>
      refine ⟨e0, ?_, ?_, ?_⟩
      · simp [updateDestination, hrev]
      · have : e0 ∈ findReverse player.location dest := by simp [hrev]
        simpa using (List.mem_filter.mp this).2
      · have : e0 ∈ findReverse player.location dest := by simp [hrev]
        exact List.mem_of_mem_filter this
  · intro h α f
    have hrev : findReverse player.location dest = [] := by
      apply List.filter_eq_nil_iff.mpr
      intro e hmem
      simpa using h e hmem
    simp [updateDestination, hrev]

/-- Concrete instance of `update_destination_callback`: the fixture
destination room holds a reverse exit back to the player's location, and the
callback log is exactly one call. -/
theorem update_destination_callback_witness :
    ∃ e, updateDestination testPlayer destRoom (fun x => [x]) = some [e] ∧
      e.location = testPlayer.location ∧ e ∈ destRoom.exits :=
  (update_destination_callback testPlayer destRoom).1 ⟨backExit, by decide, by decide⟩

/-! ### Helper lemmas about the mutation primitives -/

theorem setOpen_direction (e : Exit) (v : Bool) : (setOpen e v).direction = e.direction := rfl

theorem setOpen_location (e : Exit) (v : Bool) : (setOpen e v).location = e.location := rfl

theorem setLocked_direction (e : Exit) (v : Bool) : (setLocked e v).direction = e.direction := rfl

theorem setOpen_idem (e : Exit) (v : Bool) : setOpen (setOpen e v) v = setOpen e v := by
  cases e with
  | mk dir loc door =>
    cases door with
    | none => rfl
    | some d => cases d; rfl

theorem setOpen_doorless (e : Exit) (v : Bool) (h : e.door = none) : setOpen e v = e := by
  cases e with
  | mk dir loc door =>
    simp only [Exit.door] at h
    subst h
    rfl

/-- `updateFirst` with a predicate-preserving rewrite maps the head of the
filter and keeps the tail. -/
theorem filter_updateFirst (p : Exit → Bool) (f : Exit → Exit)
    (hf : ∀ x, p (f x) = p x) :
    ∀ (l : List Exit) (y : Exit) (ys : List Exit), l.filter p = y :: ys →
      (updateFirst p f l).filter p = f y :: ys := by
  intro l
  induction l with
  | nil => intro y ys h; simp at h
  | cons x xs ih =>
    intro y ys h
    by_cases hx : p x = true
    · rw [List.filter_cons_of_pos hx] at h
      injection h with h1 h2
      subst h1
      subst h2
      simp [updateFirst, hx, List.filter_cons_of_pos, hf]
    · rw [List.filter_cons_of_neg (by simpa using hx)] at h
      simp [updateFirst, hx, List.filter_cons_of_neg, ih _ _ h]

/-- Rewriting the first `p`-element does not disturb a `q`-filter whose head
is a `p`-element fixed by `f`. -/
theorem filter_updateFirst_cross (p q : Exit → Bool) (f : Exit → Exit)
    (hq : ∀ x, q (f x) = q x) :
    ∀ (l : List Exit) (y : Exit) (ys : List Exit),
      l.filter q = y :: ys → p y = true → f y = y →
      (updateFirst p f l).filter q = y :: ys := by
  intro l
  induction l with
  | nil => intro y ys h _ _; simp at h
  | cons x xs ih =>
    intro y ys h hpy hfy
    by_cases hpx : p x = true
    · by_cases hqx : q x = true
      · rw [List.filter_cons_of_pos hqx] at h
        injection h with h1 h2
        subst h1
        subst h2
        simp [updateFirst, hpx, hfy, List.filter_cons_of_pos, hqx]
      · rw [List.filter_cons_of_neg (by simpa using hqx)] at h
        have hqfx : q (f x) = false := by rw [hq]; simpa using hqx
        simp [updateFirst, hpx, List.filter_cons_of_neg, hqfx, h]
    · by_cases hqx : q x = true
      · rw [List.filter_cons_of_pos hqx] at h
        injection h with h1 h2
        subst h1
        exact absurd hpy (by simpa using hpx)
      · rw [List.filter_cons_of_neg (by simpa using hqx)] at h
        simp [updateFirst, hpx, List.filter_cons_of_neg, hqx, ih _ _ h hpy hfy]

/-- When nothing satisfies `p`, `updateFirst` is the identity. -/
theorem updateFirst_of_filter_nil (p : Exit → Bool) (f : Exit → Exit) :
    ∀ l : List Exit, l.filter p = [] → updateFirst p f l = l := by
  intro l
  induction l with
  | nil => intro _; rfl
  | cons x xs ih =>
    intro h
    by_cases hx : p x = true
    · rw [List.filter_cons_of_pos hx] at h
      cases h
    · rw [List.filter_cons_of_neg (by simpa using hx)] at h
      simp [updateFirst, hx, ih h]

/-- When `f` fixes the first `p`-element, `updateFirst` is the identity. -/
theorem updateFirst_fix (p : Exit → Bool) (f : Exit → Exit) :
    ∀ (l : List Exit) (y : Exit) (ys : List Exit),
      l.filter p = y :: ys → f y = y → updateFirst p f l = l := by
  intro l
  induction l with
  | nil => intro y ys h _; simp at h
  | cons x xs ih =>
    intro y ys h hfy
    by_cases hx : p x = true
    · rw [List.filter_cons_of_pos hx] at h
      injection h with h1 h2
      subst h1
      simp [updateFirst, hx, hfy]
    · rw [List.filter_cons_of_neg (by simpa using hx)] at h
      simp [updateFirst, hx, ih _ _ h hfy]

/-- Observation of a keyed update: only the updated key changes, through
`f`. -/
theorem getAt_updateRoomAt (rooms : RoomsMap) (loc : String) (f : Room → Room) (loc' : String) :
    getAt (updateRoomAt rooms loc f) loc' =
      if loc = loc' then (getAt rooms loc').map f else getAt rooms loc' := by
  induction rooms with
  | nil => simp [updateRoomAt, getAt]
  | cons kr rest ih =>
    obtain ⟨k, r⟩ := kr
    rw [updateRoomAt, List.map_cons]
    by_cases h1 : k = loc
    · rw [if_pos h1]
      subst h1
      by_cases h2 : k = loc'
      · subst h2
        simp [getAt]
      · rw [if_neg h2]
        simp only [getAt, if_neg h2]
        rw [show List.map (fun kr => if kr.1 = k then (kr.1, f kr.2) else kr) rest =
              updateRoomAt rest k f from rfl, ih, if_neg h2]
    · rw [if_neg h1]
      by_cases h2 : k = loc'
      · subst h2
        rw [if_neg (fun hh => h1 hh.symm)]
        simp [getAt]
      · simp only [getAt, if_neg h2]
        rw [show List.map (fun kr => if kr.1 = loc then (kr.1, f kr.2) else kr) rest =
              updateRoomAt rest loc f from rfl, ih]

/-- `applyOpenOrigin` leaves every other location untouched. -/
theorem getAt_applyOpenOrigin_ne (rooms : RoomsMap) (loc d : String) (v : Bool) (loc' : String)
    (h : loc' ≠ loc) :
    getAt (applyOpenOrigin rooms loc d v) loc' = getAt rooms loc' := by
  rw [applyOpenOrigin, getAt_updateRoomAt, if_neg (Ne.symm h)]

/-- `applyOpenOrigin` rewrites the stored room at the origin through the
first-match update. -/
theorem getAt_applyOpenOrigin_eq (rooms : RoomsMap) (loc d : String) (v : Bool) (room : Room)
    (h : getAt rooms loc = some room) :
    getAt (applyOpenOrigin rooms loc d v) loc =
      some { room with exits := updateFirst (fun e => e.direction == d) (fun e => setOpen e v) room.exits } := by
  rw [applyOpenOrigin, getAt_updateRoomAt, if_pos rfl, h, Option.map_some']

/-- `propagate` leaves every location other than the destination
untouched. -/
theorem getAt_propagate_ne (rooms : RoomsMap) (destLoc originLoc : String) (v : Bool)
    (loc' : String) (h : loc' ≠ destLoc) :
    getAt (propagate rooms destLoc originLoc v) loc' = getAt rooms loc' := by
  cases hd : getAt rooms destLoc with
  | none => simp [propagate, hd]
  | some destRoom =>
    cases hr : findReverse originLoc destRoom with
    | nil => simp [propagate, hd, hr]
    | cons a as =>
      simp only [propagate, hd, hr]
      rw [getAt_updateRoomAt, if_neg (Ne.symm h)]

/-- Any failing open/close invocation is a pure actor-only denial: the room
map is returned unchanged and the only emitted message is a `player.say`. -/
theorem setDoorState_fail (d : String) (v : Bool) (player : Player) (rooms : RoomsMap) (room : Room)
    (hroom : getAt rooms player.location = some room)
    (hfail : d = "" ∨ findExit room d = [] ∨
      ∃ e rest, findExit room d = e :: rest ∧
        (e.door = none ∨ ∃ dd, e.door = some dd ∧ dd.locked = true)) :
    (setDoorState d v player rooms).1 = rooms ∧
      ∃ t, (setDoorState d v player rooms).2 = [Msg.toActor t] := by
  by_cases hd : d = ""
  · subst hd
    have h0 : (("" : String) = "") := rfl
    simp only [setDoorState, if_pos h0]
    exact ⟨by trivial, _, rfl⟩
  · rcases hfail with hblank | hnone | ⟨e, rest, hfe, hdoor⟩
    · exact absurd hblank hd
    · simp only [setDoorState, if_neg hd, hroom, hnone]
      exact ⟨by trivial, _, rfl⟩
    · rcases hdoor with hnone | ⟨dd, hdd, hlocked⟩
      · simp only [setDoorState, if_neg hd, hroom, hfe, hnone]
        exact ⟨by trivial, _, rfl⟩
      · simp only [setDoorState, if_neg hd, hroom, hfe, hdd]
        rw [if_pos hlocked]
        exact ⟨by trivial, _, rfl⟩

/-- C2: every failing invocation of `openDoor` or `closeDoor` — blank
direction, unmatched direction, doorless resolved Exit, or locked Door —
leaves the room map (hence the Exit and its Door) unchanged and emits
exactly one actor-only `say` denial, with no room-wide broadcast (the
embedding is total, so no error is raised). -/
theorem open_close_failure_frame (d : String) (player : Player) (rooms : RoomsMap) (room : Room)
    (hroom : getAt rooms player.location = some room)
    (hfail : d = "" ∨ findExit room d = [] ∨
      ∃ e rest, findExit room d = e :: rest ∧
        (e.door = none ∨ ∃ dd, e.door = some dd ∧ dd.locked = true)) :
    ((openDoor d player rooms).1 = rooms ∧
       ∃ t, (openDoor d player rooms).2 = [Msg.toActor t]) ∧
    ((closeDoor d player rooms).1 = rooms ∧
       ∃ t, (closeDoor d player rooms).2 = [Msg.toActor t]) :=
  ⟨setDoorState_fail d true player rooms room hroom hfail,
   setDoorState_fail d false player rooms room hroom hfail⟩

/-- Concrete instance of `open_close_failure_frame`: opening or closing the
locked fixture exit changes nothing and answers the actor alone. -/
theorem open_close_failure_frame_witness :
    ((openDoor "out" testPlayer lockedRooms).1 = lockedRooms ∧
       ∃ t, (openDoor "out" testPlayer lockedRooms).2 = [Msg.toActor t]) ∧
    ((closeDoor "out" testPlayer lockedRooms).1 = lockedRooms ∧
       ∃ t, (closeDoor "out" testPlayer lockedRooms).2 = [Msg.toActor t]) :=
  open_close_failure_frame "out" testPlayer lockedRooms lockedRoom (by decide)
    (Or.inr (Or.inr ⟨lockedExit, [], by decide,
      Or.inr ⟨lockedTestDoor, by decide, by decide⟩⟩))

/-- A successful key turn rewrites exactly the first matching Exit's Door to
the target `locked` value. -/
theorem useKey_success (d : String) (v : Bool) (player : Player) (rooms : RoomsMap)
    (room : Room) (e : Exit) (rest : List Exit) (dd : Door) (k : String)
    (hd : d ≠ "") (hroom : getAt rooms player.location = some room)
    (hfe : findExit room d = e :: rest) (hdoor : e.door = some dd) (hkey : dd.key = some k)
    (hitem : player.inventory.any (fun it => hasKeyword it k) = true) :
    ∃ room', getAt (useKeyToSetLocked d v player rooms).1 player.location = some room' ∧
      findExit room' d = { e with door := some { dd with locked := v } } :: rest := by
  have hstate : (useKeyToSetLocked d v player rooms).1 =
      updateRoomAt rooms player.location
        (fun r => { r with
          exits := updateFirst (fun x => x.direction == d) (fun x => setLocked x v) r.exits }) := by
    simp only [useKeyToSetLocked, if_neg hd, hroom, hfe, hdoor, hkey]
    rw [if_pos hitem]
  refine ⟨{ room with
      exits := updateFirst (fun x => x.direction == d) (fun x => setLocked x v) room.exits },
    ?_, ?_⟩
  · rw [hstate, getAt_updateRoomAt, if_pos rfl, hroom, Option.map_some']
  · have h1 : room.exits.filter (fun x => x.direction == d) = e :: rest := hfe
    have h2 := filter_updateFirst (fun x => x.direction == d) (fun x => setLocked x v)
      (fun x => rfl) room.exits e rest h1
    have h3 : setLocked e v = { e with door := some { dd with locked := v } } := by
      simp [setLocked, hdoor]
    simpa [findExit, h3] using h2

/-- A failed key turn (no configured key, or no matching item) is a pure
actor-only denial with no state change. -/
theorem useKey_fail (d : String) (v : Bool) (player : Player) (rooms : RoomsMap)
    (room : Room) (e : Exit) (rest : List Exit) (dd : Door)
    (hd : d ≠ "") (hroom : getAt rooms player.location = some room)
    (hfe : findExit room d = e :: rest) (hdoor : e.door = some dd)
    (hkey : dd.key = none ∨
      ∃ k, dd.key = some k ∧ player.inventory.any (fun it => hasKeyword it k) = false) :
    (useKeyToSetLocked d v player rooms).1 = rooms ∧
      ∃ t, (useKeyToSetLocked d v player rooms).2 = [Msg.toActor t] := by
  rcases hkey with hnone | ⟨k, hk, hfalse⟩
  · simp only [useKeyToSetLocked, if_neg hd, hroom, hfe, hdoor, hnone]
    exact ⟨by trivial, _, rfl⟩
  · simp only [useKeyToSetLocked, if_neg hd, hroom, hfe, hdoor, hk]
    rw [if_neg (by simp [hfalse])]
    exact ⟨by trivial, _, rfl⟩

/-- C3: on a direction resolving to an Exit with a Door, `useKeyToUnlock`
(resp. `useKeyToLock`) sets the Door's `locked` flag to false (resp. true)
exactly when the player's inventory holds an item whose keyword set includes
the Door's configured key; otherwise the room map is unchanged and the
denial goes to the player's own channel only, never as a broadcast. -/
theorem use_key_lock_unlock (d : String) (player : Player) (rooms : RoomsMap)
    (room : Room) (e : Exit) (rest : List Exit) (dd : Door)
    (hd : d ≠ "") (hroom : getAt rooms player.location = some room)
    (hfe : findExit room d = e :: rest) (hdoor : e.door = some dd) :
    (∀ k, dd.key = some k → player.inventory.any (fun it => hasKeyword it k) = true →
       (∃ room', getAt (useKeyToUnlock d player rooms).1 player.location = some room' ∧
          findExit room' d = { e with door := some { dd with locked := false } } :: rest) ∧
       (∃ room', getAt (useKeyToLock d player rooms).1 player.location = some room' ∧
          findExit room' d = { e with door := some { dd with locked := true } } :: rest)) ∧
    ((dd.key = none ∨
        ∃ k, dd.key = some k ∧ player.inventory.any (fun it => hasKeyword it k) = false) →
       ((useKeyToUnlock d player rooms).1 = rooms ∧
          (∃ t, (useKeyToUnlock d player rooms).2 = [Msg.toActor t])) ∧
       ((useKeyToLock d player rooms).1 = rooms ∧
          (∃ t, (useKeyToLock d player rooms).2 = [Msg.toActor t]))) := by
  constructor
  · intro k hk hit
    exact ⟨useKey_success d false player rooms room e rest dd k hd hroom hfe hdoor hk hit,
           useKey_success d true player rooms room e rest dd k hd hroom hfe hdoor hk hit⟩
  · intro hfailk
    exact ⟨useKey_fail d false player rooms room e rest dd hd hroom hfe hdoor hfailk,
           useKey_fail d true player rooms room e rest dd hd hroom hfe hdoor hfailk⟩

/-- Concrete instance of `use_key_lock_unlock`: the fixture player's `test`
key unlocks (and re-locks) the locked fixture exit. -/
theorem use_key_lock_unlock_witness :
    (∃ room', getAt (useKeyToUnlock "out" testPlayer lockedRooms).1 testPlayer.location = some room' ∧
       findExit room' "out" =
         { lockedExit with door := some { lockedTestDoor with locked := false } } :: []) ∧
    (∃ room', getAt (useKeyToLock "out" testPlayer lockedRooms).1 testPlayer.location = some room' ∧
       findExit room' "out" =
         { lockedExit with door := some { lockedTestDoor with locked := true } } :: []) :=
  (use_key_lock_unlock "out" testPlayer lockedRooms lockedRoom lockedExit [] lockedTestDoor
      (by decide) (by decide) (by decide) (by decide)).1 "test" (by decide) (by decide)

/-- In every branch of an open/close, the tail of the matching-exit
sequence — every matching Exit after the first — is returned verbatim. -/
theorem setDoorState_first_match (d : String) (v : Bool) (player : Player) (rooms : RoomsMap)
    (room : Room) (e : Exit) (rest : List Exit)
    (hroom : getAt rooms player.location = some room)
    (hfe : findExit room d = e :: rest) :
    ∃ room' e1, getAt (setDoorState d v player rooms).1 player.location = some room' ∧
      findExit room' d = e1 :: rest := by
  by_cases hd : d = ""
  · subst hd
    have h0 : (("" : String) = "") := rfl
    simp only [setDoorState, if_pos h0]
    exact ⟨room, e, hroom, hfe⟩
  · cases hdoor : e.door with
    | none =>
      simp only [setDoorState, if_neg hd, hroom, hfe, hdoor]
      exact ⟨room, e, rfl, hfe⟩
    | some dd =>
      by_cases hlocked : dd.locked = true
      · simp only [setDoorState, if_neg hd, hroom, hfe, hdoor]
        rw [if_pos hlocked]
        exact ⟨room, e, hroom, hfe⟩
      · have hstate : (setDoorState d v player rooms).1 =
            propagate (applyOpenOrigin rooms player.location d v) e.location player.location v := by
          simp only [setDoorState, if_neg hd, hroom, hfe, hdoor]
          rw [if_neg hlocked]
        have h1 : room.exits.filter (fun x => x.direction == d) = e :: rest := hfe
        have h2 := filter_updateFirst (fun x => x.direction == d) (fun x => setOpen x v)
          (fun x => rfl) room.exits e rest h1
        have hget1 : getAt (applyOpenOrigin rooms player.location d v) player.location =
            some { room with
              exits := updateFirst (fun x => x.direction == d) (fun x => setOpen x v) room.exits } :=
          getAt_applyOpenOrigin_eq rooms player.location d v room hroom
        have hfind1 : findExit
            { room with
              exits := updateFirst (fun x => x.direction == d) (fun x => setOpen x v) room.exits } d =
            setOpen e v :: rest := by
          simpa [findExit] using h2
        generalize hR : ({ room with
          exits := updateFirst (fun x => x.direction == d) (fun x => setOpen x v) room.exits } : Room) = R
          at hget1 hfind1
        by_cases hloc : e.location = player.location
        · rw [hstate, hloc]
          have hm : setOpen e v ∈ findExit R d := by
            rw [hfind1]; exact List.mem_cons_self _ _
          have hmem : setOpen e v ∈ R.exits := List.mem_of_mem_filter hm
          have hmf : setOpen e v ∈ findReverse player.location R :=
            List.mem_filter.mpr ⟨hmem, by simp [setOpen, hloc]⟩
          cases hrev : findReverse player.location R with
          | nil => rw [hrev] at hmf; cases hmf
          | cons a as =>
            simp only [propagate, hget1, hrev]
            refine ⟨{ R with
              exits := updateFirst (fun x => x.location == player.location)
                (fun x => setOpen x v) R.exits }, setOpen e v, ?_, ?_⟩
            · rw [getAt_updateRoomAt, if_pos rfl, hget1, Option.map_some']
            · have h4 := filter_updateFirst_cross (fun x => x.location == player.location)
                (fun x => x.direction == d) (fun x => setOpen x v) (fun x => rfl)
                R.exits (setOpen e v) rest hfind1 (by simp [setOpen, hloc]) (setOpen_idem e v)
              simpa [findExit] using h4
        · rw [hstate]
          refine ⟨R, setOpen e v, ?_, hfind1⟩
          rw [getAt_propagate_ne (applyOpenOrigin rooms player.location d v) e.location
            player.location v player.location (fun hc => hloc hc.symm)]
          exact hget1

/-- C10: when several Exits of the room match the direction, `openDoor` and
`closeDoor` act on at most the first matching Exit: the tail of the
matching sequence — including a doorless Exit listed after one with a Door
— is returned with every field unchanged. -/
theorem open_close_first_match_only (d : String) (player : Player) (rooms : RoomsMap)
    (room : Room) (e : Exit) (rest : List Exit)
    (hroom : getAt rooms player.location = some room)
    (hfe : findExit room d = e :: rest) :
    (∃ room' e1, getAt (openDoor d player rooms).1 player.location = some room' ∧
       findExit room' d = e1 :: rest) ∧
    (∃ room' e1, getAt (closeDoor d player rooms).1 player.location = some room' ∧
       findExit room' d = e1 :: rest) :=
  ⟨setDoorState_first_match d true player rooms room e rest hroom hfe,
   setDoorState_first_match d false player rooms room e rest hroom hfe⟩

/-- Concrete instance of `open_close_first_match_only`: with two `out`
exits, the trailing doorless passageway survives both operations with all
its fields intact. -/
theorem open_close_first_match_only_witness :
    (∃ room' e1, getAt (openDoor "out" testPlayer dupRooms).1 testPlayer.location = some room' ∧
       findExit room' "out" = e1 :: [passageExit]) ∧
    (∃ room' e1, getAt (closeDoor "out" testPlayer dupRooms).1 testPlayer.location = some room' ∧
       findExit room' "out" = e1 :: [passageExit]) :=
  open_close_first_match_only "out" testPlayer dupRooms dupRoom testExit [passageExit]
    (by decide) (by decide)

/-- A successful open/close is exactly the origin-side mutation followed by
the propagation step. -/
theorem setDoorState_success_state (d : String) (v : Bool) (player : Player) (rooms : RoomsMap)
    (room : Room) (e : Exit) (rest : List Exit) (dd : Door)
    (hd : d ≠ "") (hroom : getAt rooms player.location = some room)
    (hfe : findExit room d = e :: rest) (hdoor : e.door = some dd)
    (hlocked : dd.locked = false) :
    (setDoorState d v player rooms).1 =
      propagate (applyOpenOrigin rooms player.location d v) e.location player.location v := by
  simp only [setDoorState, if_neg hd, hroom, hfe, hdoor]
  rw [if_neg (by simp [hlocked])]

/-- Every key-turn result is either the untouched room map or an update of
the player's own room alone. -/
theorem useKey_state_cases (d : String) (v : Bool) (player : Player) (rooms : RoomsMap) :
    (useKeyToSetLocked d v player rooms).1 = rooms ∨
    ∃ f, (useKeyToSetLocked d v player rooms).1 = updateRoomAt rooms player.location f := by
  by_cases hd : d = ""
  · left
    simp only [useKeyToSetLocked, if_pos hd]
  · cases hroom : getAt rooms player.location with
    | none =>
      left
      simp only [useKeyToSetLocked, if_neg hd, hroom]
    | some room =>
      cases hfe : findExit room d with
      | nil =>
        left
        simp only [useKeyToSetLocked, if_neg hd, hroom, hfe]
      | cons e es =>
        cases hdoor : e.door with
        | none =>
          left
          simp only [useKeyToSetLocked, if_neg hd, hroom, hfe, hdoor]
        | some dd =>
          cases hkey : dd.key with
          | none =>
            left
            simp only [useKeyToSetLocked, if_neg hd, hroom, hfe, hdoor, hkey]
          | some k =>
            by_cases hit : player.inventory.any (fun it => hasKeyword it k) = true
            · right
              refine ⟨fun r => { r with
                exits := updateFirst (fun x => x.direction == d)
                  (fun x => setLocked x v) r.exits }, ?_⟩
              simp only [useKeyToSetLocked, if_neg hd, hroom, hfe, hdoor, hkey]
              rw [if_pos hit]
            · left
              simp only [useKeyToSetLocked, if_neg hd, hroom, hfe, hdoor, hkey]
              rw [if_neg hit]

/-- Lock and unlock never touch any room other than the player's own — in
particular they never propagate to the reverse Exit's room. -/
theorem useKey_no_propagation (d : String) (v : Bool) (player : Player) (rooms : RoomsMap)
    (loc' : String) (h : loc' ≠ player.location) :
    getAt (useKeyToSetLocked d v player rooms).1 loc' = getAt rooms loc' := by
  rcases useKey_state_cases d v player rooms with h1 | ⟨f, h1⟩
  · rw [h1]
  · rw [h1, getAt_updateRoomAt, if_neg (Ne.symm h)]

/-- C5: after a successful `openDoor`/`closeDoor` (the two instances of
`setDoorState`), the new `open` value is mirrored onto the Door of the
reverse Exit found in the destination room; when the destination room or
the reverse Exit is missing the result is exactly the origin-side mutation
(propagation silently skipped), and a doorless reverse Exit is left
untouched at every location; the key operations (`useKeyToLock`/
`useKeyToUnlock`, the two instances of `useKeyToSetLocked`) never change
any room but the player's own. -/
theorem open_close_propagation (d : String) (player : Player) (rooms : RoomsMap)
    (room : Room) (e : Exit) (rest : List Exit) (dd : Door)
    (hd : d ≠ "") (hroom : getAt rooms player.location = some room)
    (hfe : findExit room d = e :: rest) (hdoor : e.door = some dd)
    (hlocked : dd.locked = false) (hne : e.location ≠ player.location) :
    (∀ v (dst : Room) (r : Exit) (rs : List Exit) (rd : Door),
       getAt rooms e.location = some dst →
       findReverse player.location dst = r :: rs → r.door = some rd →
       ∃ dst', getAt (setDoorState d v player rooms).1 e.location = some dst' ∧
         findReverse player.location dst' =
           { r with door := some { rd with open_ := v } } :: rs) ∧
    (∀ v, (getAt rooms e.location = none ∨
        ∃ dst, getAt rooms e.location = some dst ∧ findReverse player.location dst = []) →
      (setDoorState d v player rooms).1 = applyOpenOrigin rooms player.location d v) ∧
    (∀ v (dst : Room) (r : Exit) (rs : List Exit),
       getAt rooms e.location = some dst →
       findReverse player.location dst = r :: rs → r.door = none →
       ∀ loc', getAt (setDoorState d v player rooms).1 loc' =
         getAt (applyOpenOrigin rooms player.location d v) loc') ∧
    (∀ v loc', loc' ≠ player.location →
       getAt (useKeyToSetLocked d v player rooms).1 loc' = getAt rooms loc') ∧
    openDoor d player rooms = setDoorState d true player rooms ∧
    closeDoor d player rooms = setDoorState d false player rooms ∧
    useKeyToLock d player rooms = useKeyToSetLocked d true player rooms ∧
    useKeyToUnlock d player rooms = useKeyToSetLocked d false player rooms := by
  refine ⟨?_, ?_, ?_, ?_, rfl, rfl, rfl, rfl⟩
  · intro v dst r rs rd hdst hrev hrd
    rw [setDoorState_success_state d v player rooms room e rest dd hd hroom hfe hdoor hlocked]
    have hdst1 : getAt (applyOpenOrigin rooms player.location d v) e.location = some dst := by
      rw [getAt_applyOpenOrigin_ne rooms player.location d v e.location hne]
      exact hdst
    simp only [propagate, hdst1, hrev]
    refine ⟨{ dst with
        exits := updateFirst (fun x => x.location == player.location)
          (fun x => setOpen x v) dst.exits }, ?_, ?_⟩
    · rw [getAt_updateRoomAt, if_pos rfl, hdst1, Option.map_some']
    · have h1 : dst.exits.filter (fun x => x.location == player.location) = r :: rs := hrev
      have h2 := filter_updateFirst (fun x => x.location == player.location)
        (fun x => setOpen x v) (fun x => rfl) dst.exits r rs h1
      have h3 : setOpen r v = { r with door := some { rd with open_ := v } } := by
        simp [setOpen, hrd]
      simpa [findReverse, h3] using h2
  · intro v hskip
    rw [setDoorState_success_state d v player rooms room e rest dd hd hroom hfe hdoor hlocked]
    rcases hskip with hnone | ⟨dst, hdst, hrev⟩
    · have hdst1 : getAt (applyOpenOrigin rooms player.location d v) e.location = none := by
        rw [getAt_applyOpenOrigin_ne rooms player.location d v e.location hne]
        exact hnone
      simp [propagate, hdst1]
    · have hdst1 : getAt (applyOpenOrigin rooms player.location d v) e.location = some dst := by
        rw [getAt_applyOpenOrigin_ne rooms player.location d v e.location hne]
        exact hdst
      simp [propagate, hdst1, hrev]
  · intro v dst r rs hdst hrev hrd loc'
    rw [setDoorState_success_state d v player rooms room e rest dd hd hroom hfe hdoor hlocked]
    have hdst1 : getAt (applyOpenOrigin rooms player.location d v) e.location = some dst := by
      rw [getAt_applyOpenOrigin_ne rooms player.location d v e.location hne]
      exact hdst
    simp only [propagate, hdst1, hrev]
    have hfix : updateFirst (fun x => x.location == player.location)
        (fun x => setOpen x v) dst.exits = dst.exits :=
      updateFirst_fix _ _ dst.exits r rs hrev (setOpen_doorless r v hrd)
    rw [getAt_updateRoomAt]
    by_cases hl : e.location = loc'
    · rw [if_pos hl, ← hl, hdst1, Option.map_some', ← hl] at *
      rw [hdst1]
      simp [hfix]
    · rw [if_neg hl]
  · intro v loc' hl
    exact useKey_no_propagation d v player rooms loc' hl

/-- Concrete instance of `open_close_propagation`: opening the fixture exit
mirrors `open = true` onto the reverse exit's door in room `2`, and a key
turn leaves room `2` untouched. -/
theorem open_close_propagation_witness :
    (∃ dst', getAt (setDoorState "out" true testPlayer testRooms).1 testExit.location = some dst' ∧
       findReverse testPlayer.location dst' =
         { backExit with door := some { testDoor with open_ := true } } :: []) ∧
    getAt (useKeyToSetLocked "out" true testPlayer testRooms).1 "2" = getAt testRooms "2" := by
  have h := open_close_propagation "out" testPlayer testRooms testRoom testExit [] testDoor
    (by decide) (by decide) (by decide) (by decide) (by decide) (by decide)
  exact ⟨h.1 true destRoom backExit [] testDoor (by decide) (by decide) (by decide),
         h.2.2.2.1 true "2" (by decide)⟩

end Selenia
